import Mathlib

/-!
Verification development for the excel-image-transformer repository.

The code under verification is a TypeScript library that locates every image
embedded in a spreadsheet package (a zip of OOXML parts), resolves the cell
each image is anchored to, and rewrites each anchored cell with a
caller-supplied string.

The shallow embedding below follows the two source modules:
 - the resolver class ExcelImageResolver (fields and methods `_resolveDrawing`,
   `_resolveSheetImages`, `_parseMetaXmlToObject`, `_parseMetaImageToFile`,
   `_xml2Obj`), which walks XML-derived untyped objects; those objects are
   modelled by the `JsVal` value type together with JavaScript property-access,
   truthiness and array semantics;
 - the facade class Excel (`load`, `transformImagesToStr`, `getData`,
   `_assertHasLoaded`), whose cell grid is modelled by `Grid`.

Thrown JavaScript errors are modelled by `Except`: `JsErr.typeError` is a
TypeError raised by dereferencing null/undefined or calling a method that does
not exist on the receiver, and `JsErr.errMsg s` is a thrown `new Error(s)`.
-/

/-- A JavaScript value as produced by the XML-to-object mapper `_xml2Obj`:
strings (attribute values and element text), plain objects (merged records),
arrays (repeated or list-coerced elements), plus `null` and `undefined`. -/
inductive JsVal where
  | vStr (s : String)
  | vObj (fields : List (String × JsVal))
  | vArr (elems : List JsVal)
  | vNull
  | vUndefined
deriving Repr

/-- An error surfaced by the TypeScript code: either an uncontrolled TypeError
(member access or method call on a value that does not support it) or a thrown
`new Error(message)`. -/
inductive JsErr where
  | typeError
  | errMsg (s : String)
deriving Repr, DecidableEq

/-- JavaScript truthiness for the values of our model: null, undefined and the
empty string are falsy; objects and arrays (even empty ones) are truthy. -/
def truthy : JsVal → Bool
  | .vNull => false
  | .vUndefined => false
  | .vStr s => !s.isEmpty
  | .vObj _ => true
  | .vArr _ => true

/-- Field lookup in an object record; a missing key reads as `undefined`. -/
def jsGet : List (String × JsVal) → String → JsVal
  | [], _ => .vUndefined
  | (k', v) :: rest, k => if k' = k then v else jsGet rest k

/-- JavaScript property access `v[k]`: reading a property of null or undefined
throws a TypeError; reading a named property we never define on a string or an
array yields `undefined`. -/
def jsGetE : JsVal → String → Except JsErr JsVal
  | .vObj fs, k => .ok (jsGet fs k)
  | .vNull, _ => .error .typeError
  | .vUndefined, _ => .error .typeError
  | .vStr _, _ => .ok .vUndefined
  | .vArr _, _ => .ok .vUndefined

/-- Set (or add) a field of an object record, keeping field order. -/
def setField : List (String × JsVal) → String → JsVal → List (String × JsVal)
  | [], k, v => [(k, v)]
  | (k', v') :: rest, k, v =>
    if k' = k then (k, v) :: rest else (k', v') :: setField rest k v

/-- JavaScript property assignment `v[k] = x` restricted to the receivers that
occur here: on an object it updates the field; on any other receiver the
assignment has no observable effect in this code path. -/
def jsSet (k : String) (x : JsVal) : JsVal → JsVal
  | .vObj fs => .vObj (setField fs k x)
  | v => v

/-- `a || b` for the values of our model. -/
def jsOr (a b : JsVal) : JsVal := if truthy a then a else b

/-- The call `a.concat(b)` as it occurs in `_resolveSheetImages`: on an array
receiver it concatenates (a non-array argument is appended as one element); a
plain object, null or undefined receiver has no `concat` method, so the call
throws a TypeError. -/
def jsConcat : JsVal → JsVal → Except JsErr (List JsVal)
  | .vArr xs, .vArr ys => .ok (xs ++ ys)
  | .vArr xs, y => .ok (xs ++ [y])
  | _, _ => .error .typeError

/-- The coercion used by JavaScript code expecting a string (`x as string`
followed by string methods): a non-string receiver has none of the string
methods used here, so the subsequent call throws a TypeError. -/
def asStringE : JsVal → Except JsErr String
  | .vStr s => .ok s
  | _ => .error .typeError

/-- The coercion used by code that calls an array method (`find`, `flatMap`,
`forEach`) on a value typed `Array<any>`: a non-array value has no such
method, so the call throws a TypeError. -/
def asElemList : JsVal → Except JsErr (List JsVal)
  | .vArr xs => .ok xs
  | _ => .error .typeError

/-- Parse an unsigned decimal digit sequence; any non-digit character means
the text is not a number (NaN, `none`). -/
def digitsToNat (acc : Nat) : List Char → Option Nat
  | [] => some acc
  | c :: cs =>
    if c.isDigit then digitsToNat (acc * 10 + (c.toNat - '0'.toNat)) cs
    else none

/-- JavaScript `Number(v)` restricted to the values that reach it in this code:
element text is an unsigned decimal digit string and converts to its value;
the empty string converts to 0; null converts to 0; anything else that occurs
(undefined, objects) is NaN, modelled as `none`. -/
def jsNumber : JsVal → Option Nat
  | .vStr s => if s.data.isEmpty then some 0 else digitsToNat 0 s.data
  | .vNull => some 0
  | _ => none

/-- Key equality of a JavaScript `Map` (SameValueZero) for the keys that occur
here: strings compare by contents, null, undefined compare to themselves;
distinct object values are distinct keys (identity), which the value model
conservatively treats as never equal. -/
def jsKeyEq : JsVal → JsVal → Bool
  | .vStr a, .vStr b => decide (a = b)
  | .vNull, .vNull => true
  | .vUndefined, .vUndefined => true
  | _, _ => false

/-- Whether `p` is an initial segment of `l` (the prefix test JavaScript
`replace` performs at each position while scanning for its pattern). -/
def startsWithChars : List Char → List Char → Bool
  | [], _ => true
  | _ :: _, [] => false
  | p :: ps, c :: cs => p = c && startsWithChars ps cs

/-- The characters after the last slash (all of them when there is none). -/
def afterLastSlashChars (acc : List Char) : List Char → List Char
  | [] => acc
  | c :: rest =>
    if c = '/' then afterLastSlashChars [] rest
    else afterLastSlashChars (acc ++ [c]) rest

/-- `target.substr(target.lastIndexOf("/") + 1)`: the substring after the last
slash (the whole string when there is no slash). -/
def jsAfterLastSlash (s : String) : String :=
  String.mk (afterLastSlashChars [] s.data)

/-- Replace the leftmost occurrence of `pat` (and only it) in a character
list. -/
def replaceFirstChars (pat rep : List Char) : List Char → List Char
  | [] => []
  | c :: rest =>
    if startsWithChars pat (c :: rest) then rep ++ (c :: rest).drop pat.length
    else c :: replaceFirstChars pat rep rest

/-- JavaScript `s.replace(pat, rep)` with a string pattern: replaces only the
first occurrence of `pat`. -/
def jsReplaceFirst (s pat rep : String) : String :=
  String.mk (replaceFirstChars pat.data rep.data s.data)

/-- One entry of `workbook["files"]` (the decompressed package): the raw bytes
of the part, together with the object the XML parser yields on that text
(`none` when the text is not well-formed XML). Decoding bytes to text
(FileReader) and the xml-js parse are external collaborators; `parsed` records
their combined outcome so that `_parseMetaXmlToObject` can be stated on it. -/
structure PartData where
  bytes : List Nat
  parsed : Option JsVal

/-- The decompressed package: part path to part data, as in the `files`
property of the workbook object. -/
abbrev Pkg := List (String × PartData)

/-- The method `_getDataFromWbFile`: look a part up by path in
`workbook["files"]`; a missing part is `null`. (Whether `_data` holds the
bytes directly or behind `getContent` is normalized away here, as in the
source.) -/
def _getDataFromWbFile (pkg : Pkg) (path : String) : Option PartData :=
  List.lookup path pkg

/-- The method `_parseMetaXmlToObject`: `null` when the part is absent,
otherwise the object parsed from the part's text; malformed XML is rejected
with the diagnostic error the source constructs. -/
def _parseMetaXmlToObject (pkg : Pkg) (path : String) : Except JsErr JsVal :=
  match _getDataFromWbFile pkg path with
  | none => .ok .vNull
  | some pd =>
    match pd.parsed with
    | some v => .ok v
    | none => .error (.errMsg ("xml parse failure: " ++ path))

/-- A `File` object as built by `_parseMetaImageToFile`: the media part's
bytes under the media file's name. -/
structure File where
  bytes : List Nat
  name : String
deriving Repr, DecidableEq

/-- The method `_parseMetaImageToFile`: `null` when the part is absent, else a
`File` over the part's bytes. -/
def _parseMetaImageToFile (pkg : Pkg) (path filename : String) : Option File :=
  match _getDataFromWbFile pkg path with
  | none => none
  | some pd => some { bytes := pd.bytes, name := filename }

/-- A cell coordinate as computed by the resolver: `row`/`col` are the results
of JavaScript `Number()` on the anchor's coordinate text (`none` is NaN). -/
structure Coord where
  row : Option Nat
  col : Option Nat
deriving Repr, DecidableEq

/-- The interface IImageAnchor: the normalized anchor shape. (`from` and `to` are
reserved tokens here, hence the field names `from'` and `to'`.) -/
structure IImageAnchor where
  from' : Coord
  to' : Coord
deriving Repr, DecidableEq

/-- The interface IImageMetadata: the anchor together with the media file;
the file is `none` exactly when the source stores `null` there. -/
structure IImageMetadata where
  file : Option File
  from' : Coord
  to' : Coord
deriving Repr, DecidableEq

/-- The `alwaysArray` option `_xml2Obj` passes to the xml-js parser: element
names that are represented as arrays even when a single occurrence exists.
Note that `xdr:oneCellAnchor` is not in the list. -/
def alwaysArrayNames : List String :=
  ["xdr:twoCellAnchor", "Relationship", "sheet"]

/-- Modelled from the spec: the list-coercion rule of the StructuredXmlMapper
(the xml-js library, an external collaborator, as configured by `_xml2Obj`).
A child element name with exactly one occurrence maps to the single merged
record unless the name is list-coerced; several occurrences always map to an
array of records. -/
def coerceOccurrences (alwaysArr : List String) (name : String) : List JsVal → JsVal
  | [v] => if name ∈ alwaysArr then .vArr [v] else v
  | vs => .vArr vs

/-- Lines 154-156 of `_resolveSheetImages`: read the two-cell and one-cell
anchor collections off the drawing object (`|| []` when absent) and evaluate
`oneCellAnchors.concat(twoCellAnchors)`. -/
def collectAnchors (drawingXmlObj : JsVal) : Except JsErr (List JsVal) := do
  let wsDr ← jsGetE drawingXmlObj "xdr:wsDr"
  let twoCellAnchors := jsOr (← jsGetE wsDr "xdr:twoCellAnchor") (.vArr [])
  let oneCellAnchors := jsOr (← jsGetE wsDr "xdr:oneCellAnchor") (.vArr [])
  jsConcat oneCellAnchors twoCellAnchors

/-- The coordinate pair read in `_resolveSheetImages`:
`{ row: Number(pair["xdr:row"]), col: Number(pair["xdr:col"]) }`. -/
def coordOf (pair : JsVal) : Except JsErr Coord := do
  let r ← jsGetE pair "xdr:row"
  let c ← jsGetE pair "xdr:col"
  return { row := jsNumber r, col := jsNumber c }

/-- The relationship id of one anchor:
`anchor["xdr:pic"]["xdr:blipFill"]["a:blip"]["r:embed"]`. -/
def anchorEmbedId (anchor : JsVal) : Except JsErr JsVal := do
  let pic ← jsGetE anchor "xdr:pic"
  let blipFill ← jsGetE pic "xdr:blipFill"
  let blip ← jsGetE blipFill "a:blip"
  jsGetE blip "r:embed"

/-- The body of the `forEach` over anchors in `_resolveSheetImages` (lines
158-169): the relationship id, `from` off the anchor's `xdr:from` pair, and
`to` off `xdr:to` when the anchor has one (two-cell anchor), else off the same
`xdr:from` pair (one-cell anchor). -/
def extractOne (anchor : JsVal) : Except JsErr (JsVal × IImageAnchor) := do
  let id ← anchorEmbedId anchor
  let fromPair ← jsGetE anchor "xdr:from"
  let from' ← coordOf fromPair
  let toVal ← jsGetE anchor "xdr:to"
  let isOneCellAnchors := !truthy toVal
  let toPair ← jsGetE anchor ("xdr:" ++ if isOneCellAnchors then "from" else "to")
  let to' ← coordOf toPair
  return (id, { from' := from', to' := to' })

/-- The mutable `imageAnchorsMap`: relationship id to the anchors referencing
it, in insertion order (a JavaScript `Map`). -/
abbrev AnchorsMap := List (JsVal × List IImageAnchor)

/-- `imageAnchorsMap.get(id)`: `undefined` (here `none`) when the key is
absent. -/
def lookupAnchors : AnchorsMap → JsVal → Option (List IImageAnchor)
  | [], _ => none
  | (k, v) :: rest, id => if jsKeyEq k id then some v else lookupAnchors rest id

/-- The get-create-push-set sequence of the `forEach` body: append the anchor
to the id's list, creating the list on first use; an existing key keeps its
position in the map. -/
def insertAnchor : AnchorsMap → JsVal → IImageAnchor → AnchorsMap
  | [], id, a => [(id, [a])]
  | (k, v) :: rest, id, a =>
    if jsKeyEq k id then (k, v ++ [a]) :: rest
    else (k, v) :: insertAnchor rest id a

/-- The whole `forEach` over the concatenated anchor list: extract each anchor
and group by relationship id; a failing anchor aborts the traversal with the
thrown error. -/
def buildAnchorsMap (anchors : List JsVal) : Except JsErr AnchorsMap :=
  anchors.foldlM (fun m a => do
    let p ← extractOne a
    return insertAnchor m p.1 p.2) []

/-- The worksheet part path `_resolveDrawing` reads:
`xl/worksheets/sheet<id>.xml`. -/
def sheetXmlPath (sheetId : String) : String :=
  "xl/worksheets/sheet" ++ sheetId ++ ".xml"

/-- The worksheet relationship part path `_resolveDrawing` reads:
`xl/worksheets/_rels/sheet<id>.xml.rels`. -/
def sheetRelsPath (sheetId : String) : String :=
  "xl/worksheets/_rels/sheet" ++ sheetId ++ ".xml.rels"

/-- The relationship lookup of `_resolveDrawing` exactly as written in the
source: `relationships.find(r => { return r.Id = drawingRelId; })`. The
predicate body is an assignment, not a comparison: it mutates `r.Id` and
evaluates to `drawingRelId` itself, so `find` returns the first element
whenever `drawingRelId` is truthy (with its `Id` overwritten), and `undefined`
when `drawingRelId` is falsy. -/
def relationshipOfDrawing (relationships : List JsVal) (drawingRelId : JsVal) :
    Option JsVal :=
  (relationships.find? (fun _ => truthy drawingRelId)).map
    (jsSet "Id" drawingRelId)

/-- Modelled from the spec: the intended relationship lookup of DrawingLocator
step 2 — select the relationship whose `Id` equals the worksheet's declared
drawing relationship id, by exact equality comparison. Stated here only to be
compared against `relationshipOfDrawing`, the lookup the source performs. -/
def specFindRelationship (relationships : List JsVal) (drawingRelId : JsVal) :
    Option JsVal :=
  relationships.find? (fun r =>
    match jsGetE r "Id" with
    | .ok v => jsKeyEq v drawingRelId
    | .error _ => false)

/-- The pair `_resolveDrawing` returns: the drawing's object and the drawing
relationship table's object (each may be `null` when the part is absent). -/
structure DrawingObjs where
  drawingXmlObj : JsVal
  drawingRelXmlObj : JsVal

/-- The method `_resolveDrawing`: read the worksheet part, return `null` when
it declares no drawing; read the worksheet relationship table, return `null`
when that part is absent or no relationship is selected; then read the drawing
part (the target path with its leading `..` rewritten to `xl`) and the drawing
relationship part (`xl/drawings/_rels/<drawing filename>.rels`), and return
both objects unchecked. -/
def _resolveDrawing (pkg : Pkg) (sheetId : String) :
    Except JsErr (Option DrawingObjs) := do
  let sheetXmlObj ← _parseMetaXmlToObject pkg (sheetXmlPath sheetId)
  let worksheet ← jsGetE sheetXmlObj "worksheet"
  let drawing ← jsGetE worksheet "drawing"
  if !truthy drawing then return none
  let drawingRelId ← jsGetE drawing "r:id"
  let sheetRelsXmlObj ← _parseMetaXmlToObject pkg (sheetRelsPath sheetId)
  if !truthy sheetRelsXmlObj then return none
  let relationshipsVal ← jsGetE sheetRelsXmlObj "Relationships"
  let relationshipVal ← jsGetE relationshipsVal "Relationship"
  let relationships ← asElemList relationshipVal
  match relationshipOfDrawing relationships drawingRelId with
  | none => return none
  | some rel => do
    let targetVal ← jsGetE rel "Target"
    let drawingTarget ← asStringE targetVal
    let drawingXmlFilename := jsAfterLastSlash drawingTarget
    let drawingXmlFilePath := jsReplaceFirst drawingTarget ".." "xl"
    let drawingXmlObj ← _parseMetaXmlToObject pkg drawingXmlFilePath
    let drawingRelXmlFilePath :=
      "xl/drawings/_rels/" ++ (drawingXmlFilename ++ ".rels")
    let drawingRelXmlObj ← _parseMetaXmlToObject pkg drawingRelXmlFilePath
    return some ⟨drawingXmlObj, drawingRelXmlObj⟩

/-- The media part path built per relationship: `xl/media/<filename>`. -/
def mediaPath (filename : String) : String := "xl/media/" ++ filename

/-- The body of the `flatMap` over the drawing relationship table in
`_resolveSheetImages` (lines 182-193): read `Id` and `Target`, derive the
media file (which may be `null`), look the anchors for the id up, throw
`new Error("image anchor not found")` when there are none, and emit one
metadata entry per anchor (the same file, each anchor's coordinates). -/
def resolveRelImages (pkg : Pkg) (m : AnchorsMap) (r : JsVal) :
    Except JsErr (List IImageMetadata) := do
  let id ← jsGetE r "Id"
  let targetVal ← jsGetE r "Target"
  let target ← asStringE targetVal
  let filename := jsAfterLastSlash target
  let path := mediaPath filename
  let file := _parseMetaImageToFile pkg path filename
  match lookupAnchors m id with
  | none => .error (.errMsg "image anchor not found")
  | some imageAnchors =>
    .ok (imageAnchors.map (fun a => { file := file, from' := a.from', to' := a.to' }))

/-- The `flatMap` over the drawing relationship table: each relationship's
entries in order, concatenated; the traversal is sequential and the first
thrown error aborts it. -/
def resolveRelLoop (pkg : Pkg) (m : AnchorsMap) :
    List JsVal → Except JsErr (List IImageMetadata)
  | [] => .ok []
  | r :: rest => do
    let ms ← resolveRelImages pkg m r
    let msRest ← resolveRelLoop pkg m rest
    return ms ++ msRest

/-- The method `_resolveSheetImages`: resolve the drawing pair (an absent
drawing yields `[]`), collect and group the anchors, then `flatMap` the
drawing relationship table into metadata entries, in relationship-table
order. -/
def _resolveSheetImages (pkg : Pkg) (sheetId : String) :
    Except JsErr (List IImageMetadata) := do
  match ← _resolveDrawing pkg sheetId with
  | none => return []
  | some dObj => do
    let imageAnchors ← collectAnchors dObj.drawingXmlObj
    let m ← buildAnchorsMap imageAnchors
    let relationshipsVal ← jsGetE dObj.drawingRelXmlObj "Relationships"
    let relationshipVal ← jsGetE relationshipsVal "Relationship"
    let relationships ← asElemList relationshipVal
    resolveRelLoop pkg m relationships

/-- One cell of the in-memory grid `sheet_to_json(sheet, { header: 1 })`
yields: a hole (an index that was never assigned, read back as `undefined`),
an original cell value (opaque here), or a string written by the transform. -/
inductive CellVal where
  | empty
  | orig (n : Nat)
  | str (s : String)
deriving Repr, DecidableEq

/-- The per-sheet grid: an array of row arrays. -/
abbrev Grid := List (List CellVal)

/-- Read a cell: a row index beyond the grid or a column index beyond the row
reads as a hole. -/
def cellAt (g : Grid) (r c : Nat) : CellVal :=
  (g.getD r []).getD c .empty

/-- Grow a row with holes so that index `n - 1` exists (JavaScript assignment
beyond the array length leaves holes in between). -/
def growTo (row : List CellVal) (n : Nat) : List CellVal :=
  row ++ List.replicate (n - row.length) .empty

/-- `row[c] = v`: assign index `c`, growing the row with holes as needed. -/
def setCellAt (row : List CellVal) (c : Nat) (v : CellVal) : List CellVal :=
  (growTo row (c + 1)).set c v

/-- Grow the grid with empty rows so that row index `n - 1` exists. -/
def growRows (g : Grid) (n : Nat) : Grid :=
  g ++ List.replicate (n - g.length) []

/-- `data[r] = row`: assign row index `r`, growing the grid as needed. -/
def setRowAt (g : Grid) (r : Nat) (row : List CellVal) : Grid :=
  (growRows g (r + 1)).set r row

/-- Lines 216-217 of `transformImagesToStr`:
`data[r] = data[r] || []; data[r][c] = str;` — a missing row (beyond the
current bounds, or a hole) is created as `[]` first, then the string is stored
at the column index. -/
def writeCell (g : Grid) (r c : Nat) (s : String) : Grid :=
  setRowAt g r (setCellAt (g.getD r []) c (.str s))

/-- A cell position as passed to the transform callback (`{ row, col }`). -/
structure CellPos where
  row : Nat
  col : Nat
deriving Repr, DecidableEq

/-- An entry of the resolver's output as consumed by `transformImagesToStr`:
the media file (`null` possible) and the anchor's two coordinates. -/
structure ImageLocation where
  file : Option File
  from' : CellPos
  to' : CellPos
deriving Repr, DecidableEq

/-- The inner loop of `transformImagesToStr` over one sheet's locations: for
each location in order, invoke the callback with the file and the `from`
coordinate, await its string, and write it at `[from.row][from.col]`. The
second component records the callback invocations in order (the sequential
awaiting makes the invocation order the list order). -/
def transformSheet (cb : Option File → CellPos → String)
    (locs : List ImageLocation) (g : Grid) :
    Grid × List (Option File × CellPos) :=
  locs.foldl (fun st l =>
    let s := cb l.file l.from'
    (writeCell st.1 l.from'.row l.from'.col s, st.2 ++ [(l.file, l.from')]))
    (g, [])

/-- The workbook's sheets as the facade sees them: sheet name to grid, in
`SheetNames` order. -/
abbrev Workbook := List (String × Grid)

/-- Errors thrown by the Excel facade: the not-loaded guard error of
`_assertHasLoaded`, the missing-sheet guard error of `_assertSheetExist`, and
an unguarded TypeError (member access or call on `undefined`). -/
inductive ExcelErr where
  | notLoaded
  | sheetNotExist (n : String)
  | typeError
deriving Repr, DecidableEq

/-- The method `setData`: assert the sheet exists, then write the grid back
into the workbook under the sheet's name (`sheet_add_aoa` over the full data
region). -/
def setData (wb : Workbook) (n : String) (g : Grid) : Except ExcelErr Workbook :=
  match List.lookup n wb with
  | none => .error (.sheetNotExist n)
  | some _ => .ok (wb.map (fun p => if p.1 = n then (p.1, g) else p))

/-- The sheet loop of `transformImagesToStr`: for each sheet name of the
resolver's map, read that sheet's grid (`getDataBySheetName`; an absent sheet
makes `sheet_to_json` dereference `undefined`), run the location loop, and
commit the grid with `setData`. The second component is the concatenated
callback invocation trace, in sheet order. -/
def transformImagesToStr (cb : Option File → CellPos → String)
    (wb : Workbook) :
    List (String × List ImageLocation) →
    Except ExcelErr (Workbook × List (Option File × CellPos))
  | [] => .ok (wb, [])
  | (n, locs) :: rest =>
    match List.lookup n wb with
    | none => .error .typeError
    | some data => do
      let r := transformSheet cb locs data
      let wb2 ← setData wb n r.1
      let res ← transformImagesToStr cb wb2 rest
      return (res.1, r.2 ++ res.2)

/-- The facade class Excel: `workbook` and `imageResolver` are `undefined`
until `load` assigns them. The resolver instance is constructed over the
workbook, so its presence is modelled by carrying the same workbook. -/
structure ExcelModel where
  workbook : Option Workbook
  imageResolver : Option Workbook

/-- The method `load`: parse the buffer into a workbook and construct the
resolver over it. -/
def load (wb : Workbook) : ExcelModel :=
  { workbook := some wb, imageResolver := some wb }

/-- The method `_assertHasLoaded`: throw the not-loaded error when `workbook`
is still `undefined`. -/
def _assertHasLoaded (e : ExcelModel) : Except ExcelErr Unit :=
  match e.workbook with
  | none => .error .notLoaded
  | some _ => .ok ()

/-- The method `getData`: assert loaded, then map `SheetNames` to each sheet's
name and data. (The inner `match` is unreachable after the assert; reading
`SheetNames` off an `undefined` workbook would be a TypeError.) -/
def getData (e : ExcelModel) : Except ExcelErr Workbook := do
  _assertHasLoaded e
  match e.workbook with
  | some wb => return wb
  | none => .error .typeError

/-- The method `transformImagesToStr` of the facade. Its first statement is
`await this.imageResolver.resolveImageLocations()`: before `load` the resolver
field is `undefined` and the call throws a TypeError — there is no
`_assertHasLoaded` call on this path. After `load`, the resolver's emitted
location map (`locationsMap`, produced by the resolver pipeline modelled
above) drives the sheet loop over `this.workbook`'s grids. -/
def transformImagesToStrOp (e : ExcelModel)
    (cb : Option File → CellPos → String)
    (locationsMap : List (String × List ImageLocation)) :
    Except ExcelErr (Workbook × List (Option File × CellPos)) :=
  match e.imageResolver with
  | none => .error .typeError
  | some _ =>
    match e.workbook with
    | none => .error .typeError
    | some wb => transformImagesToStr cb wb locationsMap


/-- Grouping a list of already-extracted (id, anchor) pairs by repeated
insertion, the shape `buildAnchorsMap` produces when every anchor extracts. -/
def groupPairs (ps : List (JsVal × IImageAnchor)) (m0 : AnchorsMap) : AnchorsMap :=
  ps.foldl (fun m p => insertAnchor m p.1 p.2) m0

/-- The extraction results of a list of anchors, in order: the value the
`forEach` computes before any grouping. -/
def extractAll : List JsVal → Except JsErr (List (JsVal × IImageAnchor))
  | [] => .ok []
  | a :: rest => do
    let p ← extractOne a
    let ps ← extractAll rest
    return p :: ps

/-!
Concrete fixtures: small parsed parts and packages used by the concrete
theorems and witnesses below.
-/

/-- Fixture: one relationship-table entry. -/
def relEntry (id target : String) : JsVal :=
  .vObj [("Id", .vStr id), ("Target", .vStr target)]

/-- Fixture: a parsed worksheet object declaring a drawing reference. -/
def wsSheetObj (rid : String) : JsVal :=
  .vObj [("worksheet", .vObj [("drawing", .vObj [("r:id", .vStr rid)])])]

/-- Fixture: a parsed relationship table (`Relationship` is always
list-coerced by `_xml2Obj`). -/
def relsTableObj (entries : List JsVal) : JsVal :=
  .vObj [("Relationships", .vObj [("Relationship", .vArr entries)])]

/-- Fixture: a two-cell anchor element referencing `embed`. -/
def twoCellAnchorObj (embed rf cf rt ct : String) : JsVal :=
  .vObj [
    ("xdr:pic", .vObj [("xdr:blipFill",
      .vObj [("a:blip", .vObj [("r:embed", .vStr embed)])])]),
    ("xdr:from", .vObj [("xdr:row", .vStr rf), ("xdr:col", .vStr cf)]),
    ("xdr:to", .vObj [("xdr:row", .vStr rt), ("xdr:col", .vStr ct)])]

/-- Fixture: a one-cell anchor element referencing `embed` (no `xdr:to`). -/
def oneCellAnchorObj (embed rf cf : String) : JsVal :=
  .vObj [
    ("xdr:pic", .vObj [("xdr:blipFill",
      .vObj [("a:blip", .vObj [("r:embed", .vStr embed)])])]),
    ("xdr:from", .vObj [("xdr:row", .vStr rf), ("xdr:col", .vStr cf)])]

/-- Fixture: a parsed drawing object with the given anchor collections. -/
def wsDrObj (fields : List (String × JsVal)) : JsVal :=
  .vObj [("xdr:wsDr", .vObj fields)]

/-- Fixture: a package whose worksheet declares a drawing but whose worksheet
relationship table is absent. -/
def pkgSheetRelsMissing : Pkg :=
  [(sheetXmlPath "1", ⟨[], some (wsSheetObj "rId1")⟩)]

/-- Fixture: worksheet and its relationship table present, the drawing XML
part (and everything after it) absent. -/
def pkgDrawingMissing : Pkg :=
  [(sheetXmlPath "1", ⟨[], some (wsSheetObj "rId1")⟩),
   (sheetRelsPath "1", ⟨[], some (relsTableObj
     [relEntry "rId1" "../drawings/drawing1.xml"])⟩)]

/-- Fixture: a drawing with a single two-cell anchor referencing rId1. -/
def drawingOneTwoCell : JsVal :=
  wsDrObj [("xdr:twoCellAnchor", .vArr [twoCellAnchorObj "rId1" "2" "1" "4" "3"])]

/-- Fixture: worksheet, worksheet relationships and drawing XML present, the
drawing relationship table absent. -/
def pkgDrawingRelsMissing : Pkg :=
  [(sheetXmlPath "1", ⟨[], some (wsSheetObj "rId1")⟩),
   (sheetRelsPath "1", ⟨[], some (relsTableObj
     [relEntry "rId1" "../drawings/drawing1.xml"])⟩),
   ("xl/drawings/drawing1.xml", ⟨[], some drawingOneTwoCell⟩)]

/-- Fixture: a complete linked chain whose drawing declares no anchors at all,
while its relationship table references rId1. -/
def pkgAnchorless : Pkg :=
  [(sheetXmlPath "1", ⟨[], some (wsSheetObj "rId1")⟩),
   (sheetRelsPath "1", ⟨[], some (relsTableObj
     [relEntry "rId1" "../drawings/drawing1.xml"])⟩),
   ("xl/drawings/drawing1.xml", ⟨[], some (wsDrObj [])⟩),
   ("xl/drawings/_rels/drawing1.xml.rels", ⟨[], some (relsTableObj
     [relEntry "rId1" "../media/image1.png"])⟩),
   ("xl/media/image1.png", ⟨[7, 8], none⟩)]

/-- Fixture: a package holding only one media part. -/
def pkgMediaOnly : Pkg := [("xl/media/image1.png", ⟨[7, 8], none⟩)]

/-!
Supporting lemmas: JavaScript map-key equality is a partial equivalence, the
anchor map respects insertion grouping, and the grid write/trace behaviour of
the transform loops.
-/
theorem exc_bind_ok {e a b : Type} (x : a) (f : a → Except e b) :
    (Except.ok x : Except e a) >>= f = f x := rfl

theorem jsGetE_ok_of_truthy (d : JsVal) (k : String) (h : truthy d = true) :
    ∃ v, jsGetE d k = .ok v := by
  cases d <;> simp [truthy, jsGetE] at h ⊢

theorem jsKeyEq_symm (x y : JsVal) : jsKeyEq x y = jsKeyEq y x := by
  cases x <;> cases y <;> simp [jsKeyEq, eq_comm]

theorem jsKeyEq_trans {x y z : JsVal} (h1 : jsKeyEq x y = true)
    (h2 : jsKeyEq y z = true) : jsKeyEq x z = true := by
  cases x <;> cases y <;> cases z <;> simp_all [jsKeyEq]

theorem lookupAnchors_insertAnchor (m : AnchorsMap) (k id : JsVal) (a : IImageAnchor) :
    lookupAnchors (insertAnchor m k a) id =
      if jsKeyEq k id then some ((lookupAnchors m id).getD [] ++ [a])
      else lookupAnchors m id := by
  induction m with
  | nil => by_cases h : jsKeyEq k id = true <;> simp [insertAnchor, lookupAnchors, h]
  | cons p rest ih =>
    obtain ⟨k2, v⟩ := p
    by_cases h1 : jsKeyEq k2 k = true
    · by_cases h2 : jsKeyEq k id = true
      · have h3 : jsKeyEq k2 id = true := jsKeyEq_trans h1 h2
        simp [insertAnchor, lookupAnchors, h1, h2, h3]
      · have h3 : jsKeyEq k2 id = false := by
          by_contra hc
          simp only [Bool.not_eq_false] at hc
          have hks : jsKeyEq k k2 = true := by rw [jsKeyEq_symm]; exact h1
          exact absurd (jsKeyEq_trans hks hc) (by simp [h2])
        simp [insertAnchor, lookupAnchors, h1, h2, h3]
    · by_cases h3 : jsKeyEq k2 id = true
      · have h2 : jsKeyEq k id = false := by
          by_contra hc
          simp only [Bool.not_eq_false] at hc
          have : jsKeyEq k2 k = true :=
            jsKeyEq_trans h3 (by rw [jsKeyEq_symm]; exact hc)
          exact absurd this (by simp [h1])
        simp [insertAnchor, lookupAnchors, h1, h2, h3]
      · by_cases h2 : jsKeyEq k id = true <;>
          simp [insertAnchor, lookupAnchors, h1, h2, h3, ih]

theorem lookupAnchors_groupPairs_some (ps : List (JsVal × IImageAnchor)) (id : JsVal) :
    ∀ m0 v, lookupAnchors m0 id = some v →
      lookupAnchors (groupPairs ps m0) id =
        some (v ++ (ps.filter (fun p => jsKeyEq p.1 id)).map Prod.snd) := by
  induction ps with
  | nil => intro m0 v h; simp [groupPairs, h]
  | cons p rest ih =>
    intro m0 v h
    by_cases hk : jsKeyEq p.1 id = true
    · have h2 : lookupAnchors (insertAnchor m0 p.1 p.2) id = some (v ++ [p.2]) := by
        rw [lookupAnchors_insertAnchor, if_pos hk, h]; rfl
      have := ih (insertAnchor m0 p.1 p.2) (v ++ [p.2]) h2
      simp only [groupPairs, List.foldl_cons] at this ⊢
      simp [this, hk]
    · have h2 : lookupAnchors (insertAnchor m0 p.1 p.2) id = some v := by
        rw [lookupAnchors_insertAnchor, if_neg hk, h]
      have := ih (insertAnchor m0 p.1 p.2) v h2
      simp only [groupPairs, List.foldl_cons] at this ⊢
      simp [this, hk]

theorem lookupAnchors_groupPairs_none (ps : List (JsVal × IImageAnchor)) (id : JsVal) :
    ∀ m0, lookupAnchors m0 id = none →
      lookupAnchors (groupPairs ps m0) id =
        match (ps.filter (fun p => jsKeyEq p.1 id)).map Prod.snd with
        | [] => none
        | l => some l := by
  induction ps with
  | nil => intro m0 h; simp [groupPairs, h]
  | cons p rest ih =>
    intro m0 h
    by_cases hk : jsKeyEq p.1 id = true
    · have h2 : lookupAnchors (insertAnchor m0 p.1 p.2) id = some [p.2] := by
        rw [lookupAnchors_insertAnchor, if_pos hk, h]; rfl
      have := lookupAnchors_groupPairs_some rest id (insertAnchor m0 p.1 p.2) [p.2] h2
      simp only [groupPairs, List.foldl_cons] at this ⊢
      simp [this, hk]
    · have h2 : lookupAnchors (insertAnchor m0 p.1 p.2) id = none := by
        rw [lookupAnchors_insertAnchor, if_neg hk, h]
      have := ih (insertAnchor m0 p.1 p.2) h2
      simp only [groupPairs, List.foldl_cons] at this ⊢
      simp [this, hk]

theorem buildAnchorsMap_eq_groupPairs (anchors : List JsVal)
    (ps : List (JsVal × IImageAnchor)) (hex : extractAll anchors = .ok ps) :
    buildAnchorsMap anchors = .ok (groupPairs ps []) := by
  suffices h : ∀ anchors ps m0, extractAll anchors = .ok ps →
      anchors.foldlM (fun m a => do
        let p ← extractOne a
        return insertAnchor m p.1 p.2) m0 = .ok (groupPairs ps m0) by
    exact h anchors ps [] hex
  intro as
  induction as with
  | nil =>
    intro ps m0 h
    simp only [extractAll, pure, Except.pure] at h
    cases h
    simp [groupPairs, List.foldlM, pure, Except.pure]
  | cons a rest ih =>
    intro ps m0 h
    simp only [extractAll, bind, Except.bind] at h
    cases hx : extractOne a with
    | error e => rw [hx] at h; cases h
    | ok p =>
      rw [hx] at h
      cases hr : extractAll rest with
      | error e => rw [hr] at h; cases h
      | ok ps2 =>
        rw [hr] at h
        simp only [pure, Except.pure, Except.ok.injEq] at h
        subst h
        have hstep : (do
            let p ← extractOne a
            return insertAnchor m0 p.1 p.2 : Except JsErr AnchorsMap)
            = .ok (insertAnchor m0 p.1 p.2) := by
          simp [hx, bind, Except.bind, pure, Except.pure]
        rw [List.foldlM_cons, hstep, exc_bind_ok]
        rw [ih ps2 (insertAnchor m0 p.1 p.2) hr]
        simp [groupPairs]

theorem resolveDrawing_ok (pkg : Pkg) (sheetId t : String)
    (sheetObj w d rid relsObj rv r dObj drObj : JsVal) (rest : List JsVal)
    (h1 : _parseMetaXmlToObject pkg (sheetXmlPath sheetId) = .ok sheetObj)
    (h2 : jsGetE sheetObj "worksheet" = .ok w)
    (h3 : jsGetE w "drawing" = .ok d)
    (h4 : truthy d = true)
    (hr : jsGetE d "r:id" = .ok rid)
    (htr : truthy rid = true)
    (h5 : _parseMetaXmlToObject pkg (sheetRelsPath sheetId) = .ok relsObj)
    (h5t : truthy relsObj = true)
    (h6 : jsGetE relsObj "Relationships" = .ok rv)
    (h7 : jsGetE rv "Relationship" = .ok (.vArr (r :: rest)))
    (h8 : jsGetE (jsSet "Id" rid r) "Target" = .ok (.vStr t))
    (h9 : _parseMetaXmlToObject pkg (jsReplaceFirst t ".." "xl") = .ok dObj)
    (h10 : _parseMetaXmlToObject pkg
      ("xl/drawings/_rels/" ++ (jsAfterLastSlash t ++ ".rels")) = .ok drObj) :
    _resolveDrawing pkg sheetId = .ok (some ⟨dObj, drObj⟩) := by
  simp only [_resolveDrawing, h1, h2, h3, h4, hr, h5, h5t, h6, h7, h8, h9, h10,
    bind, Except.bind, pure, Except.pure, relationshipOfDrawing, List.find?, htr,
    asElemList, Option.map, asStringE]
  simp [truthy, h5t]

-- generic list lemmas
theorem getD_set_self {a : Type} (l : List a) (n : Nat) (x d : a) (h : n < l.length) :
    (l.set n x).getD n d = x := by
  induction l generalizing n with
  | nil => simp at h
  | cons y ys ih =>
    cases n with
    | zero => rfl
    | succ k => simpa [List.set, List.getD] using ih k (by simpa using h)

theorem getD_set_ne {a : Type} (l : List a) (n m : Nat) (x d : a) (h : n ≠ m) :
    (l.set n x).getD m d = l.getD m d := by
  induction l generalizing n m with
  | nil => rfl
  | cons y ys ih =>
    cases n with
    | zero =>
      cases m with
      | zero => exact absurd rfl h
      | succ k => rfl
    | succ k =>
      cases m with
      | zero => rfl
      | succ j => simpa [List.set, List.getD] using ih k j (fun hc => h (by rw [hc]))

theorem getD_append_replicate_self {a : Type} (l : List a) (k n : Nat) (d : a) :
    (l ++ List.replicate k d).getD n d = l.getD n d := by
  induction l generalizing n with
  | nil =>
    simp only [List.nil_append]
    induction k generalizing n with
    | zero => rfl
    | succ k2 ih2 =>
      cases n with
      | zero => rfl
      | succ j => simp [List.replicate, List.getD]
  | cons y ys ih =>
    cases n with
    | zero => rfl
    | succ j => simpa [List.getD] using ih j

theorem cellAt_writeCell_self (g : Grid) (r c : Nat) (s : String) :
    cellAt (writeCell g r c s) r c = .str s := by
  unfold cellAt writeCell setRowAt growRows setCellAt growTo
  rw [getD_set_self]
  · rw [getD_set_self]
    simp [List.length_append, List.length_replicate]
    omega
  · simp [List.length_append, List.length_replicate]
    omega

theorem cellAt_writeCell_other (g : Grid) (r c r2 c2 : Nat) (s : String)
    (h : (r2, c2) ≠ (r, c)) :
    cellAt (writeCell g r c s) r2 c2 = cellAt g r2 c2 := by
  unfold cellAt writeCell setRowAt growRows setCellAt growTo
  by_cases hr : r2 = r
  · subst hr
    have hc : c2 ≠ c := fun hc => h (by rw [hc])
    rw [getD_set_self]
    · rw [getD_set_ne _ _ _ _ _ (fun hc2 => hc hc2.symm)]
      rw [getD_append_replicate_self]
    · simp [List.length_append, List.length_replicate]
      omega
  · rw [getD_set_ne _ _ _ _ _ (fun hc2 => hr hc2.symm)]
    rw [getD_append_replicate_self]

theorem transformSheet_trace_general (cb : Option File → CellPos → String)
    (locs : List ImageLocation) :
    ∀ (g : Grid) (tr : List (Option File × CellPos)),
      (locs.foldl (fun st l =>
        let s := cb l.file l.from'
        (writeCell st.1 l.from'.row l.from'.col s, st.2 ++ [(l.file, l.from')]))
        (g, tr)).2 = tr ++ locs.map (fun l => (l.file, l.from')) := by
  induction locs with
  | nil => intro g tr; simp
  | cons l rest ih =>
    intro g tr
    simp only [List.foldl_cons, List.map_cons]
    rw [ih]
    simp

theorem transformSheet_trace (cb : Option File → CellPos → String)
    (locs : List ImageLocation) (g : Grid) :
    (transformSheet cb locs g).2 = locs.map (fun l => (l.file, l.from')) := by
  unfold transformSheet
  rw [transformSheet_trace_general]
  simp

theorem transformSheet_grid_general (cb : Option File → CellPos → String)
    (locs : List ImageLocation) :
    ∀ (g : Grid) (tr : List (Option File × CellPos)),
      (locs.foldl (fun st l =>
        let s := cb l.file l.from'
        (writeCell st.1 l.from'.row l.from'.col s, st.2 ++ [(l.file, l.from')]))
        (g, tr)).1 = locs.foldl (fun h l =>
          writeCell h l.from'.row l.from'.col (cb l.file l.from')) g := by
  induction locs with
  | nil => intro g tr; simp
  | cons l rest ih => intro g tr; simp only [List.foldl_cons]; rw [ih]

theorem gridFold_untouched (cb : Option File → CellPos → String)
    (locs : List ImageLocation) :
    ∀ (g : Grid) (r c : Nat),
      (∀ l ∈ locs, (l.from'.row, l.from'.col) ≠ (r, c)) →
      cellAt (locs.foldl (fun h l =>
        writeCell h l.from'.row l.from'.col (cb l.file l.from')) g) r c
        = cellAt g r c := by
  induction locs with
  | nil => intro g r c _; rfl
  | cons l rest ih =>
    intro g r c h
    simp only [List.foldl_cons]
    rw [ih _ r c (fun x hx => h x (List.mem_cons_of_mem l hx))]
    exact cellAt_writeCell_other g l.from'.row l.from'.col r c _
      (Ne.symm (h l (List.mem_cons_self l rest)))

theorem gridFold_write (cb : Option File → CellPos → String)
    (locs : List ImageLocation) :
    ∀ (g : Grid) (i : Nat) (hi : i < locs.length),
      (∀ j, i < j → (hj : j < locs.length) →
        ((locs.get ⟨j, hj⟩).from'.row, (locs.get ⟨j, hj⟩).from'.col)
          ≠ ((locs.get ⟨i, hi⟩).from'.row, (locs.get ⟨i, hi⟩).from'.col)) →
      cellAt (locs.foldl (fun h l =>
          writeCell h l.from'.row l.from'.col (cb l.file l.from')) g)
        (locs.get ⟨i, hi⟩).from'.row (locs.get ⟨i, hi⟩).from'.col
        = .str (cb (locs.get ⟨i, hi⟩).file (locs.get ⟨i, hi⟩).from') := by
  induction locs with
  | nil => intro g i hi; simp at hi
  | cons l rest ih =>
    intro g i hi hlast
    cases i with
    | zero =>
      simp only [List.foldl_cons, List.get]
      have huntouched : ∀ x ∈ rest, (x.from'.row, x.from'.col)
          ≠ (l.from'.row, l.from'.col) := by
        intro x hx
        obtain ⟨⟨j, hj⟩, hjx⟩ := List.mem_iff_get.mp hx
        have := hlast (j + 1) (Nat.succ_pos j) (Nat.succ_lt_succ hj)
        rw [← hjx]
        simpa [List.get] using this
      rw [gridFold_untouched cb rest _ _ _ huntouched]
      exact cellAt_writeCell_self _ _ _ _
    | succ k =>
      simp only [List.foldl_cons, List.get]
      exact ih _ k (Nat.lt_of_succ_lt_succ hi)
        (fun j hj hjlt => by
          have := hlast (j + 1) (Nat.succ_lt_succ hj) (Nat.succ_lt_succ hjlt)
          simpa [List.get] using this)

theorem lookup_map_replace (wb : Workbook) (n n2 : String) (g : Grid) :
    (List.lookup n2 (wb.map (fun p => if p.1 = n then (p.1, g) else p))).isSome
      = (List.lookup n2 wb).isSome := by
  induction wb with
  | nil => rfl
  | cons p rest ih =>
    obtain ⟨k, v⟩ := p
    by_cases hc : k = n
    · simp only [List.map, hc, if_pos rfl]
      cases hb : (n2 == n) <;> simp [List.lookup, hb, hc, ih]
    · simp only [List.map, if_neg (by simpa using hc)]
      cases hb : (n2 == k) <;> simp [List.lookup, hb, ih]

theorem transformImagesToStr_ok (cb : Option File → CellPos → String)
    (lmap : List (String × List ImageLocation)) :
    ∀ (wb : Workbook),
      (∀ n ∈ lmap.map Prod.fst, (List.lookup n wb).isSome = true) →
      ∃ wb2, transformImagesToStr cb wb lmap
        = .ok (wb2, (lmap.map (fun p =>
            p.2.map (fun l => (l.file, l.from')))).flatten) := by
  induction lmap with
  | nil => intro wb _; exact ⟨wb, by simp [transformImagesToStr]⟩
  | cons p rest ih =>
    intro wb hyp
    obtain ⟨n, locs⟩ := p
    have hn : (List.lookup n wb).isSome = true := hyp n (by simp)
    cases hl : List.lookup n wb with
    | none => rw [hl] at hn; cases hn
    | some data =>
      have hset : setData wb n (transformSheet cb locs data).1
          = .ok (wb.map (fun q =>
              if q.1 = n then (q.1, (transformSheet cb locs data).1) else q)) := by
        unfold setData
        rw [hl]
      have hres : ∀ n2 ∈ rest.map Prod.fst,
          (List.lookup n2 (wb.map (fun q =>
            if q.1 = n then (q.1, (transformSheet cb locs data).1) else q))).isSome
            = true := by
        intro n2 hn2
        rw [lookup_map_replace]
        exact hyp n2 (by simp; right; simpa using hn2)
      obtain ⟨wb2, hw⟩ := ih (wb.map (fun q =>
          if q.1 = n then (q.1, (transformSheet cb locs data).1) else q)) hres
      refine ⟨wb2, ?_⟩
      simp only [transformImagesToStr, hl, hset, hw, bind, Except.bind,
        pure, Except.pure]
      rw [transformSheet_trace]
      simp

/-- C1: the spec requires the drawing-relationship lookup to select exactly
the entry whose Id strictly equals the worksheet's declared drawing
relationship id. The source instead evaluates
`relationships.find(r => { return r.Id = drawingRelId })`, an assignment, so
on a table whose second entry carries the requested id the code returns the
first entry (its Id overwritten with the requested id, its Target untouched),
while the exact-equality lookup the spec demands returns the second entry;
the two results differ. The code contradicts the spec's stated contract. -/
theorem C1_lookup_ignores_requested_id :
    relationshipOfDrawing
        [relEntry "rId9" "../drawings/drawing9.xml",
         relEntry "rId1" "../drawings/drawing1.xml"] (.vStr "rId1")
      = some (.vObj [("Id", .vStr "rId1"),
          ("Target", .vStr "../drawings/drawing9.xml")])
  ∧ specFindRelationship
        [relEntry "rId9" "../drawings/drawing9.xml",
         relEntry "rId1" "../drawings/drawing1.xml"] (.vStr "rId1")
      = some (relEntry "rId1" "../drawings/drawing1.xml")
  ∧ (JsVal.vObj [("Id", .vStr "rId1"),
        ("Target", .vStr "../drawings/drawing9.xml")])
      ≠ relEntry "rId1" "../drawings/drawing1.xml" := by
  refine ⟨rfl, rfl, ?_⟩
  simp [relEntry]

/-- C2 counterexample: a worksheet that declares a drawing but whose worksheet
relationship table is absent from the package. The claim says resolution must
fail with `DrawingResolutionError` rather than return a null/empty result; the
code returns the empty image list without any error. -/
theorem C2_counterexample_rels_missing_yields_empty :
    _resolveSheetImages pkgSheetRelsMissing "1" = .ok [] := rfl

/-- C2 (amended): when the worksheet declares a drawing, a missing worksheet
relationship table makes resolution return an empty list (the `null`
short-circuit), not an error; a missing drawing XML part or a missing drawing
relationship table makes resolution fail, but with a TypeError from
dereferencing `null` — no dedicated `DrawingResolutionError` exists anywhere
in the code. -/
theorem C2_missing_part_behaviour :
    (∀ (pkg : Pkg) (sheetId : String) (sheetObj w d : JsVal),
      _parseMetaXmlToObject pkg (sheetXmlPath sheetId) = .ok sheetObj →
      jsGetE sheetObj "worksheet" = .ok w →
      jsGetE w "drawing" = .ok d →
      truthy d = true →
      _parseMetaXmlToObject pkg (sheetRelsPath sheetId) = .ok .vNull →
      _resolveSheetImages pkg sheetId = .ok [])
  ∧ (∀ (pkg : Pkg) (sheetId t : String)
      (sheetObj w d rid relsObj rv r rel2Obj : JsVal) (rest : List JsVal),
      _parseMetaXmlToObject pkg (sheetXmlPath sheetId) = .ok sheetObj →
      jsGetE sheetObj "worksheet" = .ok w →
      jsGetE w "drawing" = .ok d →
      truthy d = true →
      jsGetE d "r:id" = .ok rid →
      truthy rid = true →
      _parseMetaXmlToObject pkg (sheetRelsPath sheetId) = .ok relsObj →
      truthy relsObj = true →
      jsGetE relsObj "Relationships" = .ok rv →
      jsGetE rv "Relationship" = .ok (.vArr (r :: rest)) →
      jsGetE (jsSet "Id" rid r) "Target" = .ok (.vStr t) →
      _parseMetaXmlToObject pkg (jsReplaceFirst t ".." "xl") = .ok .vNull →
      _parseMetaXmlToObject pkg
        ("xl/drawings/_rels/" ++ (jsAfterLastSlash t ++ ".rels")) = .ok rel2Obj →
      _resolveSheetImages pkg sheetId = .error .typeError)
  ∧ (∀ (pkg : Pkg) (sheetId t : String)
      (sheetObj w d rid relsObj rv r dObj : JsVal) (rest : List JsVal)
      (anchors : List JsVal) (m : AnchorsMap),
      _parseMetaXmlToObject pkg (sheetXmlPath sheetId) = .ok sheetObj →
      jsGetE sheetObj "worksheet" = .ok w →
      jsGetE w "drawing" = .ok d →
      truthy d = true →
      jsGetE d "r:id" = .ok rid →
      truthy rid = true →
      _parseMetaXmlToObject pkg (sheetRelsPath sheetId) = .ok relsObj →
      truthy relsObj = true →
      jsGetE relsObj "Relationships" = .ok rv →
      jsGetE rv "Relationship" = .ok (.vArr (r :: rest)) →
      jsGetE (jsSet "Id" rid r) "Target" = .ok (.vStr t) →
      _parseMetaXmlToObject pkg (jsReplaceFirst t ".." "xl") = .ok dObj →
      _parseMetaXmlToObject pkg
        ("xl/drawings/_rels/" ++ (jsAfterLastSlash t ++ ".rels")) = .ok .vNull →
      collectAnchors dObj = .ok anchors →
      buildAnchorsMap anchors = .ok m →
      _resolveSheetImages pkg sheetId = .error .typeError) := by
  refine ⟨?_, ?_, ?_⟩
  · intro pkg sheetId sheetObj w d h1 h2 h3 h4 h5
    obtain ⟨rid, hr⟩ := jsGetE_ok_of_truthy d "r:id" h4
    have hd : _resolveDrawing pkg sheetId = .ok none := by
      simp only [_resolveDrawing, h1, h2, h3, h4, h5, hr, bind, Except.bind,
        pure, Except.pure]
      simp [truthy]
    simp only [_resolveSheetImages, hd, bind, Except.bind, pure, Except.pure]
  · intro pkg sheetId t sheetObj w d rid relsObj rv r rel2Obj rest
      h1 h2 h3 h4 hr htr h5 h5t h6 h7 h8 h9 h10
    have hd := resolveDrawing_ok pkg sheetId t sheetObj w d rid relsObj rv r
      .vNull rel2Obj rest h1 h2 h3 h4 hr htr h5 h5t h6 h7 h8 h9 h10
    simp only [_resolveSheetImages, hd, bind, Except.bind, pure, Except.pure,
      collectAnchors, jsGetE]
  · intro pkg sheetId t sheetObj w d rid relsObj rv r dObj rest anchors m
      h1 h2 h3 h4 hr htr h5 h5t h6 h7 h8 h9 h10 hca hbm
    have hd := resolveDrawing_ok pkg sheetId t sheetObj w d rid relsObj rv r
      dObj .vNull rest h1 h2 h3 h4 hr htr h5 h5t h6 h7 h8 h9 h10
    simp only [_resolveSheetImages, hd, bind, Except.bind, pure, Except.pure,
      hca, hbm, jsGetE]

/-- C2 witness: the three amended branches evaluated on concrete packages. -/
theorem C2_missing_part_behaviour_witness :
    _resolveSheetImages pkgSheetRelsMissing "1" = .ok []
  ∧ _resolveSheetImages pkgDrawingMissing "1" = .error .typeError
  ∧ _resolveSheetImages pkgDrawingRelsMissing "1" = .error .typeError := by
  refine ⟨?_, ?_, ?_⟩
  · exact C2_missing_part_behaviour.1 pkgSheetRelsMissing "1"
      (wsSheetObj "rId1") _ _ rfl rfl rfl rfl rfl
  · exact C2_missing_part_behaviour.2.1 pkgDrawingMissing "1"
      "../drawings/drawing1.xml" (wsSheetObj "rId1") _ _ (.vStr "rId1")
      (relsTableObj [relEntry "rId1" "../drawings/drawing1.xml"]) _
      (relEntry "rId1" "../drawings/drawing1.xml") .vNull []
      rfl rfl rfl rfl rfl rfl rfl rfl rfl rfl rfl rfl rfl
  · exact C2_missing_part_behaviour.2.2 pkgDrawingRelsMissing "1"
      "../drawings/drawing1.xml" (wsSheetObj "rId1") _ _ (.vStr "rId1")
      (relsTableObj [relEntry "rId1" "../drawings/drawing1.xml"]) _
      (relEntry "rId1" "../drawings/drawing1.xml") drawingOneTwoCell []
      [twoCellAnchorObj "rId1" "2" "1" "4" "3"]
      [(.vStr "rId1", [⟨⟨some 2, some 1⟩, ⟨some 4, some 3⟩⟩])]
      rfl rfl rfl rfl rfl rfl rfl rfl rfl rfl rfl rfl rfl rfl rfl

/-- C3: the claim says both anchor collections are list-coerced even for a
single occurrence, and a drawing with exactly one one-cell anchor is processed
successfully. The source's `alwaysArray` list contains `xdr:twoCellAnchor` but
not `xdr:oneCellAnchor`, so a single one-cell anchor is mapped to a plain
object; `oneCellAnchors.concat(twoCellAnchors)` then throws a TypeError
(first conjunct) instead of yielding the anchor. A single two-cell anchor is
list-coerced as the claim describes (second conjunct), and had the one-cell
collection been an array the anchor would have been yielded (third
conjunct). -/
theorem C3_single_one_cell_anchor_crashes :
    collectAnchors (wsDrObj [("xdr:oneCellAnchor",
        coerceOccurrences alwaysArrayNames "xdr:oneCellAnchor"
          [oneCellAnchorObj "rId1" "2" "1"])])
      = .error .typeError
  ∧ coerceOccurrences alwaysArrayNames "xdr:twoCellAnchor"
        [twoCellAnchorObj "rId1" "2" "1" "4" "3"]
      = .vArr [twoCellAnchorObj "rId1" "2" "1" "4" "3"]
  ∧ collectAnchors (wsDrObj [("xdr:oneCellAnchor",
        .vArr [oneCellAnchorObj "rId1" "2" "1"])])
      = .ok [oneCellAnchorObj "rId1" "2" "1"] :=
  ⟨rfl, rfl, rfl⟩

/-- C10: a drawing relationship whose resolved media part path is absent from
the package does not make resolution fail: `_parseMetaImageToFile` returns
`null` and one metadata entry per anchor is emitted with that `null` file. -/
theorem C10_missing_media_yields_null_file (pkg : Pkg) (m : AnchorsMap)
    (r id : JsVal) (t : String) (anchors : List IImageAnchor)
    (hid : jsGetE r "Id" = .ok id)
    (ht : jsGetE r "Target" = .ok (.vStr t))
    (hmedia : _getDataFromWbFile pkg (mediaPath (jsAfterLastSlash t)) = none)
    (hanch : lookupAnchors m id = some anchors) :
    resolveRelImages pkg m r =
      .ok (anchors.map (fun a =>
        { file := none, from' := a.from', to' := a.to' })) := by
  simp only [resolveRelImages, hid, ht, bind, Except.bind, asStringE,
    _parseMetaImageToFile, hmedia, hanch, pure, Except.pure]

/-- C10 witness: a relationship targeting a media part that is not in the
package resolves to an entry with a `none` file. -/
theorem C10_missing_media_yields_null_file_witness :
    resolveRelImages pkgSheetRelsMissing
        [(.vStr "rId1", [⟨⟨some 2, some 1⟩, ⟨some 4, some 3⟩⟩])]
        (relEntry "rId1" "../media/image9.png")
      = .ok [{ file := none, from' := ⟨some 2, some 1⟩,
               to' := ⟨some 4, some 3⟩ }] :=
  C10_missing_media_yields_null_file pkgSheetRelsMissing
    [(.vStr "rId1", [⟨⟨some 2, some 1⟩, ⟨some 4, some 3⟩⟩])]
    (relEntry "rId1" "../media/image9.png") (.vStr "rId1") "../media/image9.png"
    [⟨⟨some 2, some 1⟩, ⟨some 4, some 3⟩⟩] rfl rfl rfl rfl

/-- C7: a drawing relationship table entry whose id has no matching anchor is
never silently skipped: the `flatMap` body throws
`new Error("image anchor not found")` (first conjunct), and the error
propagates out of `_resolveSheetImages` whenever the drawing chain resolved
(second conjunct, stated for a one-entry relationship table). -/
theorem C7_missing_anchor_raises_error (pkg : Pkg) (m : AnchorsMap)
    (r id : JsVal) (t : String)
    (hid : jsGetE r "Id" = .ok id)
    (ht : jsGetE r "Target" = .ok (.vStr t))
    (hanch : lookupAnchors m id = none) :
    resolveRelImages pkg m r = .error (.errMsg "image anchor not found")
  ∧ (∀ (sheetId tgt : String)
      (sheetObj w d rid relsObj rv rw0 dObj drObj rv2 : JsVal)
      (rest : List JsVal) (anchors : List JsVal),
      _parseMetaXmlToObject pkg (sheetXmlPath sheetId) = .ok sheetObj →
      jsGetE sheetObj "worksheet" = .ok w →
      jsGetE w "drawing" = .ok d →
      truthy d = true →
      jsGetE d "r:id" = .ok rid →
      truthy rid = true →
      _parseMetaXmlToObject pkg (sheetRelsPath sheetId) = .ok relsObj →
      truthy relsObj = true →
      jsGetE relsObj "Relationships" = .ok rv →
      jsGetE rv "Relationship" = .ok (.vArr (rw0 :: rest)) →
      jsGetE (jsSet "Id" rid rw0) "Target" = .ok (.vStr tgt) →
      _parseMetaXmlToObject pkg (jsReplaceFirst tgt ".." "xl") = .ok dObj →
      _parseMetaXmlToObject pkg
        ("xl/drawings/_rels/" ++ (jsAfterLastSlash tgt ++ ".rels")) = .ok drObj →
      collectAnchors dObj = .ok anchors →
      buildAnchorsMap anchors = .ok m →
      jsGetE drObj "Relationships" = .ok rv2 →
      jsGetE rv2 "Relationship" = .ok (.vArr [r]) →
      _resolveSheetImages pkg sheetId
        = .error (.errMsg "image anchor not found")) := by
  have hrel : resolveRelImages pkg m r
      = .error (.errMsg "image anchor not found") := by
    simp only [resolveRelImages, hid, ht, bind, Except.bind, asStringE, hanch]
  refine ⟨hrel, ?_⟩
  intro sheetId tgt sheetObj w d rid relsObj rv rw0 dObj drObj rv2 rest anchors
    h1 h2 h3 h4 hr htr h5 h5t h6 h7 h8 h9 h10 hca hbm hv2 hvr
  have hd := resolveDrawing_ok pkg sheetId tgt sheetObj w d rid relsObj rv rw0
    dObj drObj rest h1 h2 h3 h4 hr htr h5 h5t h6 h7 h8 h9 h10
  simp only [_resolveSheetImages, hd, bind, Except.bind, pure, Except.pure,
    hca, hbm, hv2, hvr, asElemList, resolveRelLoop, hrel]

/-- C7 witness: a package whose drawing declares no anchors while its
relationship table references rId1 fails with the anchor-not-found error at
`resolveRelImages` and at `_resolveSheetImages`. -/
theorem C7_missing_anchor_raises_error_witness :
    resolveRelImages pkgAnchorless [] (relEntry "rId1" "../media/image1.png")
      = .error (.errMsg "image anchor not found")
  ∧ _resolveSheetImages pkgAnchorless "1"
      = .error (.errMsg "image anchor not found") := by
  have h := C7_missing_anchor_raises_error pkgAnchorless []
    (relEntry "rId1" "../media/image1.png") (.vStr "rId1")
    "../media/image1.png" rfl rfl rfl
  exact ⟨h.1, h.2 "1" "../drawings/drawing1.xml" (wsSheetObj "rId1") _ _
    (.vStr "rId1") (relsTableObj [relEntry "rId1" "../drawings/drawing1.xml"])
    _ (relEntry "rId1" "../drawings/drawing1.xml") (wsDrObj [])
    (relsTableObj [relEntry "rId1" "../media/image1.png"]) _ [] []
    rfl rfl rfl rfl rfl rfl rfl rfl rfl rfl rfl rfl rfl rfl rfl rfl rfl⟩

/-- C4: when a drawing's anchors all extract successfully and the anchors
referencing relationship id `id` are the (nonempty, order-preserved) list `l`,
then the anchor map groups them unchanged and the relationship's `flatMap`
step emits exactly one metadata entry per anchor of `l`, in `l`'s order, all
carrying the same file value and each its own anchor's coordinates. -/
theorem C4_one_location_per_anchor (pkg : Pkg) (anchors : List JsVal)
    (ps : List (JsVal × IImageAnchor)) (r id : JsVal) (t : String)
    (l : List IImageAnchor)
    (hex : extractAll anchors = .ok ps)
    (hid : jsGetE r "Id" = .ok id)
    (ht : jsGetE r "Target" = .ok (.vStr t))
    (hl : (ps.filter (fun p => jsKeyEq p.1 id)).map Prod.snd = l)
    (hne : l ≠ []) :
    ∃ m, buildAnchorsMap anchors = .ok m ∧
      resolveRelImages pkg m r = .ok (l.map (fun a =>
        { file := _parseMetaImageToFile pkg (mediaPath (jsAfterLastSlash t))
            (jsAfterLastSlash t),
          from' := a.from', to' := a.to' })) := by
  refine ⟨groupPairs ps [], buildAnchorsMap_eq_groupPairs anchors ps hex, ?_⟩
  have hlook : lookupAnchors (groupPairs ps []) id = some l := by
    have := lookupAnchors_groupPairs_none ps id [] rfl
    rw [hl] at this
    cases l with
    | nil => exact absurd rfl hne
    | cons x xs => simpa using this
  simp only [resolveRelImages, hid, ht, bind, Except.bind, asStringE, hlook,
    pure, Except.pure]

/-- C4 witness: two two-cell anchors referencing rId1 produce exactly two
entries sharing the same file bytes, in anchor order. -/
theorem C4_one_location_per_anchor_witness :
    ∃ m, buildAnchorsMap
        [twoCellAnchorObj "rId1" "2" "1" "4" "3",
         twoCellAnchorObj "rId1" "7" "5" "8" "6"] = .ok m ∧
      resolveRelImages pkgMediaOnly m (relEntry "rId1" "../media/image1.png")
        = .ok [
          { file := _parseMetaImageToFile pkgMediaOnly "xl/media/image1.png"
              "image1.png",
            from' := ⟨some 2, some 1⟩, to' := ⟨some 4, some 3⟩ },
          { file := _parseMetaImageToFile pkgMediaOnly "xl/media/image1.png"
              "image1.png",
            from' := ⟨some 7, some 5⟩, to' := ⟨some 8, some 6⟩ }] :=
  C4_one_location_per_anchor pkgMediaOnly
    [twoCellAnchorObj "rId1" "2" "1" "4" "3",
     twoCellAnchorObj "rId1" "7" "5" "8" "6"]
    [(.vStr "rId1", ⟨⟨some 2, some 1⟩, ⟨some 4, some 3⟩⟩),
     (.vStr "rId1", ⟨⟨some 7, some 5⟩, ⟨some 8, some 6⟩⟩)]
    (relEntry "rId1" "../media/image1.png") (.vStr "rId1")
    "../media/image1.png"
    [⟨⟨some 2, some 1⟩, ⟨some 4, some 3⟩⟩, ⟨⟨some 7, some 5⟩, ⟨some 8, some 6⟩⟩]
    rfl rfl rfl rfl (List.cons_ne_nil _ _)

/-- C5: for any anchor the `forEach` body extracts, if the anchor declares no
`xdr:to` pair (one-cell anchor) the resulting record satisfies `to == from`,
both read off the `xdr:from` pair; if a truthy `xdr:to` pair is declared
(two-cell anchor), `from` is the `xdr:from` pair's coordinates and `to` is the
`xdr:to` pair's coordinates, each taken directly and independently. -/
theorem C5_anchor_normalization (anchor id : JsVal) (rec : IImageAnchor)
    (tv : JsVal)
    (hx : extractOne anchor = .ok (id, rec))
    (hto : jsGetE anchor "xdr:to" = .ok tv) :
    (truthy tv = false → rec.to' = rec.from')
  ∧ (truthy tv = true → ∀ fv, jsGetE anchor "xdr:from" = .ok fv →
      coordOf fv = .ok rec.from' ∧ coordOf tv = .ok rec.to') := by
  simp only [extractOne, bind, Except.bind] at hx
  cases he : anchorEmbedId anchor with
  | error e => simp only [he] at hx; cases hx
  | ok idv =>
    simp only [he] at hx
    cases hf : jsGetE anchor "xdr:from" with
    | error e => simp only [hf] at hx; cases hx
    | ok fv0 =>
      simp only [hf] at hx
      cases hcf : coordOf fv0 with
      | error e => simp only [hcf] at hx; cases hx
      | ok f =>
        simp only [hcf, hto] at hx
        constructor
        · intro htv
          rw [htv] at hx
          have hkey : ("xdr:" ++ if (!false) = true then "from" else "to" : String)
              = "xdr:from" := rfl
          rw [hkey] at hx
          simp only [hf, hcf, pure, Except.pure, Except.ok.injEq,
            Prod.mk.injEq] at hx
          rw [← hx.2]
        · intro htv fv hfv
          obtain rfl : fv0 = fv := Except.ok.inj hfv
          rw [htv] at hx
          have hkey : ("xdr:" ++ if (!true) = true then "from" else "to" : String)
              = "xdr:to" := rfl
          rw [hkey] at hx
          simp only [hto] at hx
          cases hct : coordOf tv with
          | error e => simp only [hct] at hx; cases hx
          | ok tc =>
            simp only [hct, pure, Except.pure, Except.ok.injEq,
              Prod.mk.injEq] at hx
            rw [← hx.2]
            exact ⟨hcf, rfl⟩

/-- C5 witness: a concrete one-cell anchor yields `to == from`; a concrete
two-cell anchor yields `from` and `to` read off its two declared pairs. -/
theorem C5_anchor_normalization_witness :
    (({ from' := ⟨some 2, some 1⟩, to' := ⟨some 2, some 1⟩ } : IImageAnchor).to'
      = ({ from' := ⟨some 2, some 1⟩,
           to' := ⟨some 2, some 1⟩ } : IImageAnchor).from')
  ∧ (coordOf (.vObj [("xdr:row", .vStr "2"), ("xdr:col", .vStr "1")])
        = .ok (⟨some 2, some 1⟩ : Coord)
    ∧ coordOf (.vObj [("xdr:row", .vStr "4"), ("xdr:col", .vStr "3")])
        = .ok (⟨some 4, some 3⟩ : Coord)) := by
  refine ⟨?_, ?_⟩
  · exact (C5_anchor_normalization (oneCellAnchorObj "rId1" "2" "1")
      (.vStr "rId1") ⟨⟨some 2, some 1⟩, ⟨some 2, some 1⟩⟩ .vUndefined
      rfl rfl).1 rfl
  · exact (C5_anchor_normalization (twoCellAnchorObj "rId1" "2" "1" "4" "3")
      (.vStr "rId1") ⟨⟨some 2, some 1⟩, ⟨some 4, some 3⟩⟩
      (.vObj [("xdr:row", .vStr "4"), ("xdr:col", .vStr "3")])
      rfl rfl).2 rfl
      (.vObj [("xdr:row", .vStr "2"), ("xdr:col", .vStr "1")]) rfl

/-- C6: the transform invokes the callback exactly once per image location, in
the resolver's emission order — sheet by sheet, each sheet's locations in
order — as recorded by the invocation trace (first conjunct, whole loop;
second conjunct, one sheet); and the only grid positions it writes are the
locations' `from` coordinates (third conjunct), where the last writer of a
position leaves exactly its callback's resolved string (fourth conjunct) — in
particular nothing is ever written at a `to` coordinate that is not also some
location's `from`. -/
theorem C6_callback_order_and_write_position :
    (∀ (cb : Option File → CellPos → String) (wb : Workbook)
        (lmap : List (String × List ImageLocation)),
      (∀ n ∈ lmap.map Prod.fst, (List.lookup n wb).isSome = true) →
      ∃ wb2, transformImagesToStr cb wb lmap
        = .ok (wb2, (lmap.map (fun p =>
            p.2.map (fun l => (l.file, l.from')))).flatten))
  ∧ (∀ (cb : Option File → CellPos → String) (locs : List ImageLocation)
        (g : Grid),
      (transformSheet cb locs g).2 = locs.map (fun l => (l.file, l.from')))
  ∧ (∀ (cb : Option File → CellPos → String) (locs : List ImageLocation)
        (g : Grid) (r c : Nat),
      (∀ l ∈ locs, (l.from'.row, l.from'.col) ≠ (r, c)) →
      cellAt (transformSheet cb locs g).1 r c = cellAt g r c)
  ∧ (∀ (cb : Option File → CellPos → String) (locs : List ImageLocation)
        (g : Grid) (i : Nat) (hi : i < locs.length),
      (∀ j, i < j → (hj : j < locs.length) →
        ((locs.get ⟨j, hj⟩).from'.row, (locs.get ⟨j, hj⟩).from'.col)
          ≠ ((locs.get ⟨i, hi⟩).from'.row, (locs.get ⟨i, hi⟩).from'.col)) →
      cellAt (transformSheet cb locs g).1
          (locs.get ⟨i, hi⟩).from'.row (locs.get ⟨i, hi⟩).from'.col
        = .str (cb (locs.get ⟨i, hi⟩).file (locs.get ⟨i, hi⟩).from')) := by
  refine ⟨fun cb wb lmap h => transformImagesToStr_ok cb lmap wb h,
    transformSheet_trace, ?_, ?_⟩
  · intro cb locs g r c h
    unfold transformSheet
    rw [transformSheet_grid_general]
    exact gridFold_untouched cb locs g r c h
  · intro cb locs g i hi hlast
    unfold transformSheet
    rw [transformSheet_grid_general]
    exact gridFold_write cb locs g i hi hlast

/-- C6 witness: one sheet, two locations; the callback trace lists both
locations in order, an unrelated cell is untouched, and the last location's
cell holds its callback string. -/
theorem C6_callback_order_and_write_position_witness :
    (∃ wb2, transformImagesToStr (fun _ p => "u" ++ toString p.row)
        [("Data", [[CellVal.orig 0]])]
        [("Data",
          [⟨none, ⟨2, 1⟩, ⟨4, 3⟩⟩, ⟨some ⟨[7, 8], "image1.png"⟩, ⟨5, 0⟩, ⟨5, 0⟩⟩])]
      = .ok (wb2,
          [(none, (⟨2, 1⟩ : CellPos)),
           (some ⟨[7, 8], "image1.png"⟩, (⟨5, 0⟩ : CellPos))]))
  ∧ cellAt (transformSheet (fun _ p => "u" ++ toString p.row)
        [⟨none, ⟨2, 1⟩, ⟨4, 3⟩⟩, ⟨some ⟨[7, 8], "image1.png"⟩, ⟨5, 0⟩, ⟨5, 0⟩⟩]
        [[CellVal.orig 0]]).1 0 0 = CellVal.orig 0
  ∧ cellAt (transformSheet (fun _ p => "u" ++ toString p.row)
        [⟨none, ⟨2, 1⟩, ⟨4, 3⟩⟩, ⟨some ⟨[7, 8], "image1.png"⟩, ⟨5, 0⟩, ⟨5, 0⟩⟩]
        [[CellVal.orig 0]]).1 5 0 = CellVal.str "u5" := by
  refine ⟨?_, ?_, ?_⟩
  · have h := C6_callback_order_and_write_position.1
      (fun _ p => "u" ++ toString p.row) [("Data", [[CellVal.orig 0]])]
      [("Data",
        [⟨none, ⟨2, 1⟩, ⟨4, 3⟩⟩, ⟨some ⟨[7, 8], "image1.png"⟩, ⟨5, 0⟩, ⟨5, 0⟩⟩])]
      (by intro n hn; simp at hn; subst hn; rfl)
    simpa using h
  · exact C6_callback_order_and_write_position.2.2.1
      (fun _ p => "u" ++ toString p.row)
      [⟨none, ⟨2, 1⟩, ⟨4, 3⟩⟩, ⟨some ⟨[7, 8], "image1.png"⟩, ⟨5, 0⟩, ⟨5, 0⟩⟩]
      [[CellVal.orig 0]] 0 0
      (by intro l hl; simp at hl; rcases hl with rfl | rfl <;> decide)
  · have h := C6_callback_order_and_write_position.2.2.2
      (fun _ p => "u" ++ toString p.row)
      [⟨none, ⟨2, 1⟩, ⟨4, 3⟩⟩, ⟨some ⟨[7, 8], "image1.png"⟩, ⟨5, 0⟩, ⟨5, 0⟩⟩]
      [[CellVal.orig 0]] 1 (by decide)
      (by intro j hj hjlt; exfalso; simp at hjlt; omega)
    simpa using h

/-- C8: writing a location whose `from.row` lies at or beyond the grid's
current row count does not fail: `data[r] = data[r] || []` creates the missing
row, the rows in between stay holes (read back as empty rows), the string
lands at `[r][c]`, and every pre-existing row is untouched. -/
theorem C8_row_growth_on_out_of_bounds_write (g : Grid) (r c : Nat) (s : String)
    (h : g.length ≤ r) :
    (writeCell g r c s).length = r + 1
  ∧ cellAt (writeCell g r c s) r c = .str s
  ∧ (∀ r2, r2 < g.length → (writeCell g r c s).getD r2 [] = g.getD r2 []) := by
  refine ⟨?_, cellAt_writeCell_self g r c s, ?_⟩
  · unfold writeCell setRowAt growRows
    simp [List.length_set, List.length_append, List.length_replicate]
    omega
  · intro r2 hr2
    unfold writeCell setRowAt growRows
    rw [getD_set_ne _ _ _ _ _ (by omega)]
    rw [getD_append_replicate_self]

/-- C8 witness: writing at row 2 of a one-row grid grows it to three rows,
stores the string, and keeps row 0. -/
theorem C8_row_growth_on_out_of_bounds_write_witness :
    (writeCell [[CellVal.orig 1]] 2 1 "u").length = 3
  ∧ cellAt (writeCell [[CellVal.orig 1]] 2 1 "u") 2 1 = .str "u"
  ∧ (writeCell [[CellVal.orig 1]] 2 1 "u").getD 0 [] = [CellVal.orig 1] := by
  have h := C8_row_growth_on_out_of_bounds_write [[CellVal.orig 1]] 2 1 "u"
    (by decide)
  exact ⟨h.1, h.2.1, h.2.2 0 (by decide)⟩

/-- C9 counterexample: calling `transformImagesToStr` before `load` fails, but
with a TypeError from calling a method on the still-undefined `imageResolver`
field — not with the not-loaded error the claim names for every public
operation. -/
theorem C9_counterexample_transform_before_load :
    transformImagesToStrOp ⟨none, none⟩ (fun _ _ => "u") [] = .error .typeError
  ∧ ExcelErr.typeError ≠ ExcelErr.notLoaded :=
  ⟨rfl, by decide⟩

/-- C9 (amended): before a package is supplied, `getData` fails with the
not-loaded error thrown by `_assertHasLoaded`, while `transformImagesToStr`
(whose first step calls the undefined resolver) fails with a TypeError
instead — it performs no not-loaded check. -/
theorem C9_not_loaded_behaviour (e : ExcelModel)
    (cb : Option File → CellPos → String)
    (lmap : List (String × List ImageLocation))
    (hw : e.workbook = none) (hr : e.imageResolver = none) :
    getData e = .error .notLoaded
  ∧ transformImagesToStrOp e cb lmap = .error .typeError := by
  constructor
  · simp only [getData, _assertHasLoaded, hw, bind, Except.bind]
  · simp only [transformImagesToStrOp, hr]

/-- C9 witness: the amended behaviour on the fresh (never-loaded) facade. -/
theorem C9_not_loaded_behaviour_witness :
    getData ⟨none, none⟩ = .error .notLoaded
  ∧ transformImagesToStrOp ⟨none, none⟩ (fun _ _ => "v") [] = .error .typeError :=
  C9_not_loaded_behaviour ⟨none, none⟩ (fun _ _ => "v") [] rfl rfl
